import Mathlib

/-!
Shallow embedding of the statistics pipeline of `teaching_dashboardlit.py`.

The script loads a spreadsheet of per-student scores, unpivots the five
subject-score columns into long form (pandas `melt`), strips the literal
token "Score" from the subject labels, groups the long rows by
(TeachingMethod, Subject), aggregates descriptive statistics per group
(pandas `groupby(...).agg(...)`, which sorts the group keys ascending),
and finally derives a 95% confidence half-width column
`CI = 1.96 * (StdDev / sqrt(Count))`.

Scores are modelled as rationals; the square-root-valued columns
(`StdDev`, `CI`) live in a separate real-valued layer over the exact
rational `Variance`, with `none` standing for pandas' NaN.
-/

attribute [local semireducible] Rat.add Rat.mul Rat.inv Rat.sub Rat.ofScientific

/-- Input row of the spreadsheet (`pd.read_excel`, line 29): one student with
a teaching method and five subject scores. -/
structure ScoreRecord where
  StudentID : String
  TeachingMethod : String
  EnglishScore : ℚ
  MathScore : ℚ
  ChemistryScore : ℚ
  PhysicsScore : ℚ
  BiologyScore : ℚ
deriving DecidableEq, Inhabited

/-- Long-form row produced by `df.melt` (lines 31-34): one (student, subject)
pair with its score. -/
structure LongRecord where
  StudentID : String
  TeachingMethod : String
  Subject : String
  Score : ℚ
deriving DecidableEq, Inhabited

/-- The `value_vars` argument of the `melt` call (line 32): the five subject
columns, paired with their projections out of a `ScoreRecord`. -/
def value_vars : List (String × (ScoreRecord → ℚ)) :=
  [("EnglishScore", ScoreRecord.EnglishScore),
   ("MathScore", ScoreRecord.MathScore),
   ("ChemistryScore", ScoreRecord.ChemistryScore),
   ("PhysicsScore", ScoreRecord.PhysicsScore),
   ("BiologyScore", ScoreRecord.BiologyScore)]

/-- The `id_vars` argument of the `melt` call (line 31). -/
def id_vars : List String := ["StudentID", "TeachingMethod"]

/-- Embedding of `df.melt(id_vars=..., value_vars=...)` (lines 31-33): pandas
stacks the value variables column by column, each contributing one long row
per input row, carrying the id variables along. -/
def melt (df : List ScoreRecord) : List LongRecord :=
  value_vars.flatMap fun v =>
    df.map fun r =>
      { StudentID := r.StudentID, TeachingMethod := r.TeachingMethod,
        Subject := v.1, Score := v.2 r }

/-- Embedding of `str.replace('Score', '')` specialised to the fixed pattern
"Score": every (left-to-right, non-overlapping) occurrence of the five
characters `S c o r e` is removed. -/
def stripScore : List Char → List Char
  | 'S' :: 'c' :: 'o' :: 'r' :: 'e' :: rest => stripScore rest
  | c :: rest => c :: stripScore rest
  | [] => []

/-- Subject-label cleanup of line 34. -/
def cleanSubject (s : String) : String := ⟨stripScore s.data⟩

/-- The long-form dataframe after the label cleanup (lines 31-34):
`df_melted` in the script. -/
def df_melted (df : List ScoreRecord) : List LongRecord :=
  (melt df).map fun r => { r with Subject := cleanSubject r.Subject }

/-- The composite group key of line 36: `(TeachingMethod, Subject)`. -/
def recordKey (r : LongRecord) : String × String := (r.TeachingMethod, r.Subject)

/-- Lexicographic order on group keys, as pandas sorts a two-level group key:
first by `TeachingMethod`, ties by `Subject` (code-point string order, the
same order Python uses). -/
def keyLE (a b : String × String) : Prop :=
  a.1 < b.1 ∨ (a.1 = b.1 ∧ a.2 ≤ b.2)

/-- Strict lexicographic order on group keys. -/
def keyLT (a b : String × String) : Prop :=
  a.1 < b.1 ∨ (a.1 = b.1 ∧ a.2 < b.2)

/-- Structural code-point lexicographic comparison of character lists.  It
is proved below to agree with the `<` of `String`; unlike the iterator-based
library comparison it reduces inside the kernel, so concrete pipelines can
be evaluated by `decide`. -/
def charListLt : List Char → List Char → Bool
  | _, [] => false
  | [], _ :: _ => true
  | a :: as, b :: bs => decide (a < b) || (a == b && charListLt as bs)

/-- String comparison through `charListLt`. -/
def strLtB (a b : String) : Bool := charListLt a.data b.data

theorem charListLt_iff_lex :
    ∀ as bs : List Char, charListLt as bs = true ↔ List.Lex (· < ·) as bs := by
  intro as
  induction as with
  | nil =>
    intro bs
    cases bs with
    | nil =>
      simp only [charListLt, Bool.false_eq_true, false_iff]
      intro h; cases h
    | cons b bs => simp only [charListLt, true_iff]; exact List.Lex.nil
  | cons a as ih =>
    intro bs
    cases bs with
    | nil =>
      simp only [charListLt, Bool.false_eq_true, false_iff]
      intro h; cases h
    | cons b bs =>
      simp only [charListLt, Bool.or_eq_true, Bool.and_eq_true, decide_eq_true_eq,
        beq_iff_eq, ih]
      constructor
      · rintro (h | ⟨rfl, h⟩)
        · exact List.Lex.rel h
        · exact List.Lex.cons h
      · intro h
        cases h with
        | cons h => exact Or.inr ⟨rfl, h⟩
        | rel h => exact Or.inl h

theorem strLtB_iff (a b : String) : strLtB a b = true ↔ a < b := by
  rw [String.lt_iff_toList_lt]
  exact charListLt_iff_lex a.data b.data

/-- The plain `≤` of `String`, named so that it can carry a
kernel-reducible decidability instance. -/
def strLE (a b : String) : Prop := a ≤ b

instance : DecidableRel strLE := fun a b =>
  decidable_of_iff (¬ strLtB b a = true) (by rw [strLtB_iff]; exact not_lt)

instance : IsTotal String strLE := ⟨fun a b => le_total a b⟩

instance : IsTrans String strLE := ⟨fun _ _ _ h1 h2 => le_trans h1 h2⟩

instance : DecidableRel keyLE := fun a b =>
  decidable_of_iff (strLtB a.1 b.1 = true ∨ (a.1 = b.1 ∧ ¬ strLtB b.2 a.2 = true))
    (by rw [strLtB_iff, strLtB_iff]; rw [not_lt]; exact Iff.rfl)

instance : DecidableRel keyLT := fun a b =>
  decidable_of_iff (strLtB a.1 b.1 = true ∨ (a.1 = b.1 ∧ strLtB a.2 b.2 = true))
    (by rw [strLtB_iff, strLtB_iff]; exact Iff.rfl)

instance : IsTotal (String × String) keyLE :=
  ⟨fun a b => by
    unfold keyLE
    rcases lt_trichotomy a.1 b.1 with h | h | h
    · exact Or.inl (Or.inl h)
    · rcases le_total a.2 b.2 with h2 | h2
      · exact Or.inl (Or.inr ⟨h, h2⟩)
      · exact Or.inr (Or.inr ⟨h.symm, h2⟩)
    · exact Or.inr (Or.inl h)⟩

instance : IsTrans (String × String) keyLE :=
  ⟨fun a b c hab hbc => by
    unfold keyLE at hab hbc ⊢
    rcases hab with h1 | ⟨e1, h1⟩ <;> rcases hbc with h2 | ⟨e2, h2⟩
    · exact Or.inl (h1.trans h2)
    · exact Or.inl (lt_of_lt_of_eq h1 e2)
    · exact Or.inl (lt_of_eq_of_lt e1 h2)
    · exact Or.inr ⟨e1.trans e2, h1.trans h2⟩⟩

/-- The sorted list of distinct group keys of `groupby(['TeachingMethod',
'Subject'])` (line 36): pandas sorts group keys ascending by default. -/
def sortedKeys (l : List LongRecord) : List (String × String) :=
  List.insertionSort keyLE (l.map recordKey).dedup

/-- Scores of one `(TeachingMethod, Subject)` group, in input order. -/
def partitionScores (l : List LongRecord) (m s : String) : List ℚ :=
  (l.filter fun r => r.TeachingMethod == m && r.Subject == s).map LongRecord.Score

/-- Ascending sort of a score sample (used by the percentile-based
aggregations). -/
def sortScores (l : List ℚ) : List ℚ := List.insertionSort (· ≤ ·) l

/-- Embedding of `Series.quantile(q)` with pandas' default linear
interpolation between order statistics: position `q * (n - 1)` in the sorted
sample, interpolating between the two neighbouring order statistics. -/
def quantile (l : List ℚ) (q : ℚ) : ℚ :=
  let s := sortScores l
  if s.length = 0 then 0
  else
    let pos : ℚ := q * ((s.length : ℚ) - 1)
    let i : ℕ := pos.floor.toNat
    let g : ℚ := pos - (i : ℚ)
    let lo := s.getD i 0
    let hi := s.getD (min (i + 1) (s.length - 1)) 0
    lo + g * (hi - lo)

/-- Maximum of a sample (`x.max()`), 0 on the empty list (never reached:
groups are non-empty). -/
def listMax : List ℚ → ℚ
  | [] => 0
  | x :: xs => xs.foldl max x

/-- Minimum of a sample (`x.min()`), 0 on the empty list (never reached:
groups are non-empty). -/
def listMin : List ℚ → ℚ
  | [] => 0
  | x :: xs => xs.foldl min x

/-- Embedding of pandas sample variance `Series.var()` (ddof = 1, line 42):
sum of squared deviations from the mean divided by `n - 1`; NaN (`none`)
when the sample has fewer than two elements. -/
def sampleVar (l : List ℚ) : Option ℚ :=
  if l.length ≤ 1 then none
  else
    some (((l.map fun x => (x - l.sum / (l.length : ℚ)) ^ 2).sum)
      / ((l.length : ℚ) - 1))

/-- Embedding of `x.mode().iloc[0] if not x.mode().empty else None`
(line 40): `Series.mode()` lists the most frequent values in ascending
order, so `iloc[0]` is the smallest most-frequent value; `None` when the
series is empty. -/
def pandasMode (l : List ℚ) : Option ℚ :=
  (l.filter fun v => l.all fun w => decide (l.count w ≤ l.count v)).min?

/-- Output row of the aggregation of lines 36-45, keyed by
`(TeachingMethod, Subject)`.  `Variance` is `none` for the NaN that pandas
produces on groups of size at most one; `StdDev` and `CI` are derived
real-valued views below. -/
structure SummaryRow where
  TeachingMethod : String
  Subject : String
  Count : ℕ
  Mean : ℚ
  Median : ℚ
  Mode : Option ℚ
  Variance : Option ℚ
  Range : ℚ
  IQR : ℚ
deriving DecidableEq, Inhabited

/-- One aggregated row (the `.agg(...)` body, lines 37-44) for a given key
and its group's scores. -/
def mkRow (k : String × String) (scores : List ℚ) : SummaryRow where
  TeachingMethod := k.1
  Subject := k.2
  Count := scores.length
  Mean := scores.sum / (scores.length : ℚ)
  Median := quantile scores (1/2)
  Mode := pandasMode scores
  Variance := sampleVar scores
  Range := listMax scores - listMin scores
  IQR := quantile scores (3/4) - quantile scores (1/4)

/-- Embedding of `descriptive_stats` (lines 36-45): one summary row per
distinct `(TeachingMethod, Subject)` key, keys sorted ascending. -/
def descriptive_stats (df : List ScoreRecord) : List SummaryRow :=
  (sortedKeys (df_melted df)).map fun k =>
    mkRow k (partitionScores (df_melted df) k.1 k.2)

/-- The group scores a summary row was aggregated from, recovered through
its own key fields. -/
def groupScores (df : List ScoreRecord) (r : SummaryRow) : List ℚ :=
  partitionScores (df_melted df) r.TeachingMethod r.Subject

/-- The `StdDev` column (line 41): pandas `Series.std()` is the square root
of the ddof = 1 variance; NaN (`none`) on groups of size at most one. -/
noncomputable def SummaryRow.StdDev (r : SummaryRow) : Option ℝ :=
  r.Variance.map fun v => Real.sqrt (v : ℝ)

/-- The confidence-half-width formula of line 47 as a function of the
standard deviation and the count: `1.96 * (StdDev / sqrt(Count))`. -/
noncomputable def ciFormula (s : ℝ) (n : ℕ) : ℝ :=
  (1.96 : ℝ) * (s / Real.sqrt (n : ℝ))

/-- The `CI` column (line 47): `1.96 * (StdDev / np.sqrt(Count))`, NaN
(`none`) whenever `StdDev` is NaN. -/
noncomputable def SummaryRow.CI (r : SummaryRow) : Option ℝ :=
  r.StdDev.map fun s => ciFormula s r.Count

/-- Embedding of `descriptive_stats.groupby('Subject')['Mean'].idxmax()`
restricted to one group (line 88): the first row of the group attaining the
maximal `Mean`. -/
def idxmaxMean (rows : List SummaryRow) : Option SummaryRow :=
  rows.find? fun r => rows.all fun q => decide (q.Mean ≤ r.Mean)

/-- Embedding of `top_methods` (line 88): for each subject (pandas groups
subjects in ascending order), the first summary row with maximal `Mean`. -/
def top_methods (rows : List SummaryRow) : List SummaryRow :=
  (List.insertionSort strLE (rows.map SummaryRow.Subject).dedup).filterMap
    fun s => idxmaxMean (rows.filter fun r => r.Subject == s)

/-- Embedding of `overall_means` (line 98):
`df_melted.groupby('TeachingMethod')['Score'].mean()`, the pooled mean of
all long rows of each teaching method, across all subjects. -/
def overall_means (l : List LongRecord) : List (String × ℚ) :=
  (List.insertionSort strLE (l.map LongRecord.TeachingMethod).dedup).map
    fun m =>
      let sc := (l.filter fun r => r.TeachingMethod == m).map LongRecord.Score
      (m, sc.sum / (sc.length : ℚ))

/-- All columns the script requires of the spreadsheet: the `id_vars` and
the `value_vars` of the `melt` call (lines 31-32). -/
def requiredColumns : List String := id_vars ++ value_vars.map Prod.fst

/-- Required columns absent from the loaded sheet, in declaration order. -/
def missingColumns (cols : List String) : List String :=
  requiredColumns.filter fun c => decide (c ∉ cols)

/-- Comma-separated rendering of a column list, as in the pandas KeyError
text. -/
def commaJoin : List String → String
  | [] => ""
  | [x] => x
  | x :: xs => x ++ ", " ++ commaJoin xs

/-- Modelled from the spec: the schema check the script gets from pandas
`DataFrame.melt` (lines 31-33) — the library itself is not part of this
repository.  `melt` verifies that every `id_vars` and `value_vars` label is
a column of the frame and raises a `KeyError` naming the absent labels
before producing any output, which is the "fail fast with a clear message
naming the missing column" behaviour the spec requires. -/
def meltKeyError (cols : List String) : Option String :=
  if missingColumns cols = [] then none
  else some ("The following id_vars or value_vars are not present in the DataFrame: ["
    ++ commaJoin (missingColumns cols) ++ "]")

/-- The pipeline of lines 29-47 as run on a sheet with the given column
set: the melt-time schema check, then the aggregation.  An error aborts
before any statistics are computed. -/
def runPipeline (cols : List String) (df : List ScoreRecord) :
    Except String (List SummaryRow) :=
  match meltKeyError cols with
  | some e => .error e
  | none => .ok (descriptive_stats df)

/-- Concrete fixture: a single student (every group then has `Count = 1`,
so `StdDev` and `CI` are NaN, the spec's first scenario). -/
def dfSingle : List ScoreRecord :=
  [⟨"S1", "Facilitator", 80, 70, 60, 50, 40⟩]

/-- Concrete fixture: three students under "Group Learning" with English
scores 70, 80, 90 (the spec's second scenario). -/
def dfGroup : List ScoreRecord :=
  [⟨"S1", "Group Learning", 70, 61, 52, 43, 34⟩,
   ⟨"S2", "Group Learning", 80, 62, 53, 44, 35⟩,
   ⟨"S3", "Group Learning", 90, 63, 54, 45, 36⟩]

/-- Concrete fixture: two summary rows for one subject with distinct means. -/
def rowsPair : List SummaryRow :=
  [{ TeachingMethod := "Facilitator", Subject := "English", Count := 1,
     Mean := 80, Median := 80, Mode := some 80, Variance := none,
     Range := 0, IQR := 0 },
   { TeachingMethod := "Group Learning", Subject := "English", Count := 1,
     Mean := 90, Median := 90, Mode := some 90, Variance := none,
     Range := 0, IQR := 0 }]

/-- Concrete fixture: a column set lacking the BiologyScore column. -/
def colsMissingBiology : List String :=
  ["StudentID", "TeachingMethod", "EnglishScore", "MathScore",
   "ChemistryScore", "PhysicsScore"]

/-!
Helper lemmas about the group-key machinery.
-/

theorem mem_sortedKeys_iff {l : List LongRecord} {k : String × String} :
    k ∈ sortedKeys l ↔ ∃ r ∈ l, recordKey r = k := by
  unfold sortedKeys
  rw [(List.perm_insertionSort keyLE _).mem_iff, List.mem_dedup, List.mem_map]

theorem nodup_sortedKeys (l : List LongRecord) : (sortedKeys l).Nodup :=
  (List.perm_insertionSort keyLE _).nodup_iff.2 (List.nodup_dedup _)

theorem sorted_sortedKeys (l : List LongRecord) :
    List.Sorted keyLE (sortedKeys l) :=
  List.sorted_insertionSort keyLE _

theorem mem_descriptive_stats_iff {df : List ScoreRecord} {r : SummaryRow} :
    r ∈ descriptive_stats df ↔
      ∃ k ∈ sortedKeys (df_melted df),
        r = mkRow k (partitionScores (df_melted df) k.1 k.2) := by
  unfold descriptive_stats
  rw [List.mem_map]
  constructor
  · rintro ⟨k, hk, rfl⟩; exact ⟨k, hk, rfl⟩
  · rintro ⟨k, hk, rfl⟩; exact ⟨k, hk, rfl⟩

theorem partitionScores_ne_nil {l : List LongRecord} {k : String × String}
    (h : ∃ r ∈ l, recordKey r = k) : partitionScores l k.1 k.2 ≠ [] := by
  obtain ⟨r, hr, hk⟩ := h
  subst hk
  have hmem : r ∈ l.filter fun x =>
      x.TeachingMethod == (recordKey r).1 && x.Subject == (recordKey r).2 := by
    rw [List.mem_filter]
    exact ⟨hr, by simp [recordKey]⟩
  intro hnil
  unfold partitionScores at hnil
  rw [List.map_eq_nil_iff] at hnil
  rw [hnil] at hmem
  exact absurd hmem (List.not_mem_nil r)

theorem partitionScores_length_eq {l : List LongRecord} {k : String × String} :
    (partitionScores l k.1 k.2).length ≠ 0 ↔ ∃ r ∈ l, recordKey r = k := by
  constructor
  · intro h
    unfold partitionScores at h
    rw [List.length_map] at h
    obtain ⟨r, hr⟩ := List.exists_mem_of_length_pos (Nat.pos_of_ne_zero h)
    rw [List.mem_filter] at hr
    obtain ⟨hmem, hpred⟩ := hr
    simp only [Bool.and_eq_true, beq_iff_eq] at hpred
    exact ⟨r, hmem, by simp [recordKey, hpred.1, hpred.2]⟩
  · intro h
    exact fun h0 => partitionScores_ne_nil h (List.length_eq_zero.1 h0)

theorem groupScores_of_mem {df : List ScoreRecord} {r : SummaryRow}
    (h : r ∈ descriptive_stats df) :
    r = mkRow (r.TeachingMethod, r.Subject) (groupScores df r) ∧
      groupScores df r ≠ [] := by
  obtain ⟨k, hk, rfl⟩ := mem_descriptive_stats_iff.1 h
  obtain ⟨k1, k2⟩ := k
  exact ⟨rfl, partitionScores_ne_nil (mem_sortedKeys_iff.1 hk)⟩

/-- C5: for every input sequence of ScoreRecords, the reshaping step
(`melt` plus the subject-label cleanup, lines 31-34) produces exactly 5
times as many LongRecords as there are ScoreRecords, one per subject
column. -/
theorem C5_melt_five_per_record (df : List ScoreRecord) :
    (df_melted df).length = 5 * df.length ∧ (melt df).length = 5 * df.length := by
  constructor <;>
    · simp only [df_melted, melt, value_vars, List.flatMap_cons, List.flatMap_nil,
        List.length_map, List.length_append, List.length_nil]
      omega

theorem keyLE_ne_imp_keyLT {a b : String × String} (h : keyLE a b) (hne : a ≠ b) :
    keyLT a b := by
  unfold keyLE at h
  unfold keyLT
  rcases h with h | ⟨e, h⟩
  · exact Or.inl h
  · refine Or.inr ⟨e, lt_of_le_of_ne h fun h2 => hne ?_⟩
    obtain ⟨a1, a2⟩ := a
    obtain ⟨b1, b2⟩ := b
    simp only at e h2
    rw [e, h2]

/-- C10: for every input, the summary rows are emitted in strictly
ascending lexicographic order of the composite key
`(TeachingMethod, Subject)`; in particular each key appears exactly once. -/
theorem C10_rows_sorted_by_key (df : List ScoreRecord) :
    List.Pairwise keyLT
      ((descriptive_stats df).map fun r => (r.TeachingMethod, r.Subject)) := by
  have hmap : ((descriptive_stats df).map fun r => (r.TeachingMethod, r.Subject))
      = sortedKeys (df_melted df) := by
    unfold descriptive_stats
    rw [List.map_map]
    have : ∀ k ∈ sortedKeys (df_melted df),
        (((fun r => (r.TeachingMethod, r.Subject)) ∘ fun k =>
          mkRow k (partitionScores (df_melted df) k.1 k.2)) k) = id k := by
      intro k _
      simp [mkRow, Function.comp, id]
    rw [List.map_congr_left this, List.map_id]
  rw [hmap]
  have hs : List.Pairwise keyLE (sortedKeys (df_melted df)) :=
    sorted_sortedKeys (df_melted df)
  have hn : List.Pairwise (fun a b : String × String => a ≠ b)
      (sortedKeys (df_melted df)) := nodup_sortedKeys (df_melted df)
  exact (hs.and hn).imp fun h => keyLE_ne_imp_keyLT h.1 h.2

theorem length_filter_beq_of_nodup {α : Type} [BEq α] [LawfulBEq α] {l : List α}
    (hl : l.Nodup) (a : α) :
    (l.filter fun x => x == a).length = if a ∈ l then 1 else 0 := by
  induction l with
  | nil => simp
  | cons x xs ih =>
    rw [List.nodup_cons] at hl
    by_cases hxa : x = a
    · subst hxa
      rw [List.filter_cons_of_pos (by simp)]
      have h0 : (xs.filter fun y => y == x).length = 0 := by
        rw [ih hl.2, if_neg hl.1]
      simp [h0]
    · rw [List.filter_cons_of_neg (by simp [hxa])]
      rw [ih hl.2]
      have : (a ∈ x :: xs) ↔ a ∈ xs := by
        rw [List.mem_cons]
        exact ⟨fun h => h.elim (fun h => absurd h.symm hxa) id, Or.inr⟩
      rw [if_congr this rfl rfl]

/-- C3: for every (TeachingMethod, Subject) partition, the `Count` field of
its summary row is the number of long records in that partition, and the
aggregation emits exactly one summary row per partition with at least one
record and none for an empty partition. -/
theorem C3_count_and_one_row_per_partition (df : List ScoreRecord) :
    (∀ r ∈ descriptive_stats df, r.Count = (groupScores df r).length) ∧
    ∀ m s : String,
      ((descriptive_stats df).filter fun r =>
          r.TeachingMethod == m && r.Subject == s).length =
        if partitionScores (df_melted df) m s = [] then 0 else 1 := by
  constructor
  · intro r hr
    obtain ⟨hrepr, -⟩ := groupScores_of_mem hr
    exact (congrArg SummaryRow.Count hrepr).trans rfl
  · intro m s
    have h1 : ((descriptive_stats df).filter fun r =>
          r.TeachingMethod == m && r.Subject == s)
        = ((sortedKeys (df_melted df)).filter fun k => k == (m, s)).map
            (fun k => mkRow k (partitionScores (df_melted df) k.1 k.2)) := by
      unfold descriptive_stats
      rw [List.filter_map]
      rfl
    rw [h1, List.length_map,
      length_filter_beq_of_nodup (nodup_sortedKeys (df_melted df)) (m, s)]
    by_cases hmem : (m, s) ∈ sortedKeys (df_melted df)
    · have hne : partitionScores (df_melted df) m s ≠ [] :=
        partitionScores_ne_nil (k := (m, s)) (mem_sortedKeys_iff.1 hmem)
      rw [if_neg hne, if_pos hmem]
    · have hnil : partitionScores (df_melted df) m s = [] := by
        by_contra hne
        exact hmem (mem_sortedKeys_iff.2
          (partitionScores_length_eq.1 fun h0 => hne (List.length_eq_zero.1 h0)))
      rw [if_pos hnil, if_neg hmem]

/-- Witness for C3 at a concrete input: the first summary row of the
single-student fixture counts its own one-element group. -/
theorem C3_witness :
    ((descriptive_stats dfSingle).getD 0 default).Count
      = (groupScores dfSingle ((descriptive_stats dfSingle).getD 0 default)).length :=
  (C3_count_and_one_row_per_partition dfSingle).1 _ (by decide)

theorem sampleVar_none_of_le_one {l : List ℚ} (h : l.length ≤ 1) :
    sampleVar l = none := by
  unfold sampleVar
  rw [if_pos h]

theorem variance_of_mem {df : List ScoreRecord} {r : SummaryRow}
    (h : r ∈ descriptive_stats df) :
    r.Variance = sampleVar (groupScores df r) :=
  (congrArg SummaryRow.Variance (groupScores_of_mem h).1).trans rfl

theorem count_of_mem {df : List ScoreRecord} {r : SummaryRow}
    (h : r ∈ descriptive_stats df) :
    r.Count = (groupScores df r).length :=
  (congrArg SummaryRow.Count (groupScores_of_mem h).1).trans rfl

theorem CI_none_of_small_group {df : List ScoreRecord} {r : SummaryRow}
    (h : r ∈ descriptive_stats df) (hc : r.Count ≤ 1) : r.CI = none := by
  have hlen : (groupScores df r).length ≤ 1 := by
    rw [← count_of_mem h]; exact hc
  have hv : r.Variance = none :=
    (variance_of_mem h).trans (sampleVar_none_of_le_one hlen)
  unfold SummaryRow.CI SummaryRow.StdDev
  rw [hv]
  rfl

/-- C1: for every summary row produced by the aggregation, the `CI` field is
`1.96 * StdDev / sqrt(Count)`, and `CI` is NaN (`none`) whenever `Count` is
0 or 1. -/
theorem C1_ci_field (df : List ScoreRecord) (r : SummaryRow)
    (h : r ∈ descriptive_stats df) :
    r.CI = (r.StdDev.map fun s => (1.96 : ℝ) * s / Real.sqrt (r.Count : ℝ)) ∧
      ((r.Count = 0 ∨ r.Count = 1) → r.CI = none) := by
  constructor
  · show r.StdDev.map (fun s => ciFormula s r.Count) = _
    cases hsd : r.StdDev with
    | none => rfl
    | some s =>
      exact congrArg some (mul_div_assoc (1.96 : ℝ) s (Real.sqrt (r.Count : ℝ))).symm
  · intro hc
    exact CI_none_of_small_group h (by omega)

/-- Witness for C1: in the single-student fixture every group has one
element, so the first row's CI is NaN. -/
theorem C1_witness : ((descriptive_stats dfSingle).getD 0 default).CI = none :=
  (C1_ci_field dfSingle _ (by decide)).2 (Or.inr (by decide))

/-- C9: the CI formula is monotonically non-increasing in the count for any
fixed nonnegative standard deviation, and the `CI` of an aggregated row is
undefined (NaN, `none`) when its `Count` is at most 1. -/
theorem C9_ci_monotone :
    (∀ (s : ℝ) (n₁ n₂ : ℕ), 0 ≤ s → 2 ≤ n₁ → n₁ ≤ n₂ →
        ciFormula s n₂ ≤ ciFormula s n₁) ∧
    ∀ (df : List ScoreRecord) (r : SummaryRow), r ∈ descriptive_stats df →
      r.Count ≤ 1 → r.CI = none := by
  constructor
  · intro s n₁ n₂ hs hn1 hn12
    unfold ciFormula
    have h0 : (0:ℝ) < (n₁:ℝ) := by exact_mod_cast Nat.lt_of_lt_of_le Nat.zero_lt_two hn1
    have h1 : (0:ℝ) < Real.sqrt (n₁:ℝ) := Real.sqrt_pos.2 h0
    have h2 : Real.sqrt (n₁:ℝ) ≤ Real.sqrt (n₂:ℝ) :=
      Real.sqrt_le_sqrt (by exact_mod_cast hn12)
    have h3 : s / Real.sqrt (n₂:ℝ) ≤ s / Real.sqrt (n₁:ℝ) := by gcongr
    exact mul_le_mul_of_nonneg_left h3 (by norm_num)
  · intro df r hmem hc
    exact CI_none_of_small_group hmem hc

/-- Witness for C9: concrete instance of the monotonicity (s = 1, counts 2
and 3) and of the NaN case on the single-student fixture. -/
theorem C9_witness :
    ciFormula 1 3 ≤ ciFormula 1 2 ∧
      ((descriptive_stats dfSingle).getD 1 default).CI = none :=
  ⟨C9_ci_monotone.1 1 2 3 zero_le_one (by decide) (by decide),
   C9_ci_monotone.2 dfSingle _ (by decide) (by decide)⟩

/-- C6: for every aggregated row of a partition with at least two records,
`StdDev` and `Variance` are both defined, `Variance` is exactly the square
of `StdDev`, and `Variance` is the sample variance of the group's scores
with the n - 1 denominator. -/
theorem C6_variance_is_stddev_squared (df : List ScoreRecord) (r : SummaryRow)
    (h : r ∈ descriptive_stats df) (h2 : 2 ≤ r.Count) :
    ∃ (s : ℝ) (v : ℚ), r.StdDev = some s ∧ r.Variance = some v ∧
      s ^ 2 = (v : ℝ) ∧
      v = ((groupScores df r).map fun x =>
            (x - (groupScores df r).sum / ((groupScores df r).length : ℚ)) ^ 2).sum
          / (((groupScores df r).length : ℚ) - 1) := by
  have hlen : 2 ≤ (groupScores df r).length := by
    rw [← count_of_mem h]; exact h2
  have hv : r.Variance
      = some (((groupScores df r).map fun x =>
            (x - (groupScores df r).sum / ((groupScores df r).length : ℚ)) ^ 2).sum
          / (((groupScores df r).length : ℚ) - 1)) := by
    rw [variance_of_mem h]
    unfold sampleVar
    rw [if_neg (by omega)]
  refine ⟨Real.sqrt ((((groupScores df r).map fun x =>
      (x - (groupScores df r).sum / ((groupScores df r).length : ℚ)) ^ 2).sum
        / (((groupScores df r).length : ℚ) - 1) : ℚ) : ℝ), _, ?_, hv, ?_, rfl⟩
  · unfold SummaryRow.StdDev
    rw [hv]
    rfl
  · apply Real.sq_sqrt
    have hnum : (0:ℚ) ≤ ((groupScores df r).map fun x =>
        (x - (groupScores df r).sum / ((groupScores df r).length : ℚ)) ^ 2).sum := by
      apply List.sum_nonneg
      intro x hx
      rw [List.mem_map] at hx
      obtain ⟨y, -, rfl⟩ := hx
      exact sq_nonneg _
    have hden : (0:ℚ) ≤ ((groupScores df r).length : ℚ) - 1 := by
      have : (2:ℚ) ≤ ((groupScores df r).length : ℚ) := by exact_mod_cast hlen
      linarith
    have : (0:ℚ) ≤ ((groupScores df r).map fun x =>
        (x - (groupScores df r).sum / ((groupScores df r).length : ℚ)) ^ 2).sum
          / (((groupScores df r).length : ℚ) - 1) := div_nonneg hnum hden
    exact_mod_cast this

/-- Witness for C6: the English group of the three-student fixture
(scores 70, 80, 90, variance 100). -/
theorem C6_witness :
    ∃ (s : ℝ) (v : ℚ),
      ((descriptive_stats dfGroup).getD 2 default).StdDev = some s ∧
      ((descriptive_stats dfGroup).getD 2 default).Variance = some v ∧
      s ^ 2 = (v : ℝ) ∧
      v = ((groupScores dfGroup ((descriptive_stats dfGroup).getD 2 default)).map fun x =>
            (x - (groupScores dfGroup ((descriptive_stats dfGroup).getD 2 default)).sum
              / ((groupScores dfGroup ((descriptive_stats dfGroup).getD 2 default)).length : ℚ)) ^ 2).sum
          / (((groupScores dfGroup ((descriptive_stats dfGroup).getD 2 default)).length : ℚ) - 1) :=
  C6_variance_is_stddev_squared dfGroup _ (by decide) (by decide)

theorem exists_max_count {l : List ℚ} (h : l ≠ []) :
    ∃ v ∈ l, ∀ w ∈ l, l.count w ≤ l.count v := by
  have hne : l.toFinset.Nonempty := by
    obtain ⟨x, hx⟩ := List.exists_mem_of_ne_nil l h
    exact ⟨x, List.mem_toFinset.2 hx⟩
  obtain ⟨v, hv, hmax⟩ := Finset.exists_max_image l.toFinset (fun v => l.count v) hne
  exact ⟨v, List.mem_toFinset.1 hv, fun w hw => hmax w (List.mem_toFinset.2 hw)⟩

theorem pandasMode_spec {l : List ℚ} (h : l ≠ []) :
    ∃ m, pandasMode l = some m ∧ m ∈ l ∧
      (∀ w ∈ l, l.count w ≤ l.count m) ∧
      (∀ v ∈ l, l.count v = l.count m → m ≤ v) := by
  obtain ⟨v0, hv0, hmax0⟩ := exists_max_count h
  have hv0m : v0 ∈ l.filter fun v => l.all fun w => decide (l.count w ≤ l.count v) := by
    rw [List.mem_filter]
    refine ⟨hv0, ?_⟩
    rw [List.all_eq_true]
    intro w hw
    exact decide_eq_true (hmax0 w hw)
  obtain ⟨m, hm⟩ : ∃ m,
      (l.filter fun v => l.all fun w => decide (l.count w ≤ l.count v)).min? = some m := by
    cases h' : (l.filter fun v => l.all fun w => decide (l.count w ≤ l.count v)).min? with
    | none =>
      rw [List.min?_eq_none_iff] at h'
      rw [h'] at hv0m
      exact absurd hv0m (List.not_mem_nil v0)
    | some m => exact ⟨m, rfl⟩
  have hiff := @List.min?_eq_some_iff ℚ m _ _
    ⟨fun h1 h2 => le_antisymm h1 h2⟩
    (fun a => le_refl a) (fun a b => min_choice a b) (fun a b c => le_min_iff)
    (l.filter fun v => l.all fun w => decide (l.count w ≤ l.count v))
  obtain ⟨hm_mem, hm_le⟩ := hiff.1 hm
  rw [List.mem_filter, List.all_eq_true] at hm_mem
  obtain ⟨hml, hmpred⟩ := hm_mem
  refine ⟨m, hm, hml, ?_, ?_⟩
  · intro w hw
    exact of_decide_eq_true (hmpred w hw)
  · intro v hv hcnt
    refine hm_le v ?_
    rw [List.mem_filter, List.all_eq_true]
    refine ⟨hv, fun w hw => decide_eq_true ?_⟩
    rw [hcnt]
    exact of_decide_eq_true (hmpred w hw)

/-- C2: for every non-empty (TeachingMethod, Subject) partition the `Mode`
field is the most frequent score value, ties going to the smallest such
value, and on an empty series the mode expression yields `None`. -/
theorem C2_mode_smallest_most_frequent :
    (∀ (df : List ScoreRecord) (r : SummaryRow), r ∈ descriptive_stats df →
      groupScores df r ≠ [] ∧
      ∃ m, r.Mode = some m ∧ m ∈ groupScores df r ∧
        (∀ w ∈ groupScores df r,
          (groupScores df r).count w ≤ (groupScores df r).count m) ∧
        (∀ v ∈ groupScores df r,
          (groupScores df r).count v = (groupScores df r).count m → m ≤ v)) ∧
    pandasMode [] = none := by
  constructor
  · intro df r hr
    obtain ⟨hrepr, hne⟩ := groupScores_of_mem hr
    have hmode : r.Mode = pandasMode (groupScores df r) :=
      (congrArg SummaryRow.Mode hrepr).trans rfl
    obtain ⟨m, hm, hmem, hmax, hmin⟩ := pandasMode_spec hne
    exact ⟨hne, m, hmode.trans hm, hmem, hmax, hmin⟩
  · rfl

/-- Witness for C2: the Biology group of the three-student fixture has a
well-defined smallest most-frequent mode. -/
theorem C2_witness :
    groupScores dfGroup ((descriptive_stats dfGroup).getD 0 default) ≠ [] ∧
    ∃ m, ((descriptive_stats dfGroup).getD 0 default).Mode = some m ∧
      m ∈ groupScores dfGroup ((descriptive_stats dfGroup).getD 0 default) ∧
      (∀ w ∈ groupScores dfGroup ((descriptive_stats dfGroup).getD 0 default),
        (groupScores dfGroup ((descriptive_stats dfGroup).getD 0 default)).count w
          ≤ (groupScores dfGroup ((descriptive_stats dfGroup).getD 0 default)).count m) ∧
      (∀ v ∈ groupScores dfGroup ((descriptive_stats dfGroup).getD 0 default),
        (groupScores dfGroup ((descriptive_stats dfGroup).getD 0 default)).count v
          = (groupScores dfGroup ((descriptive_stats dfGroup).getD 0 default)).count m →
          m ≤ v) :=
  C2_mode_smallest_most_frequent.1 dfGroup _ (by decide)

/-- C4: for every subject present among the summary rows, the
best-method-per-subject query returns a row of that subject whose `Mean` is
maximal among rows of that subject, and every strictly earlier row of that
subject (in partition order) has strictly smaller `Mean` — the first-in-
order tie-break of `idxmax`. -/
theorem C4_best_method_per_subject (rows : List SummaryRow) (s : String)
    (h : s ∈ rows.map SummaryRow.Subject) :
    ∃ b ∈ top_methods rows, b.Subject = s ∧
      (∀ r ∈ rows, r.Subject = s → r.Mean ≤ b.Mean) ∧
      ∃ l₁ l₂, (rows.filter fun r => r.Subject == s) = l₁ ++ b :: l₂ ∧
        ∀ r ∈ l₁, r.Mean < b.Mean := by
  rw [List.mem_map] at h
  obtain ⟨r0, hr0, hr0s⟩ := h
  have hr0rs : r0 ∈ rows.filter fun r => r.Subject == s := by
    rw [List.mem_filter]
    exact ⟨hr0, by simp [hr0s]⟩
  obtain ⟨x, hx, hmax⟩ := Finset.exists_max_image
    (rows.filter fun r => r.Subject == s).toFinset (fun r => r.Mean)
    ⟨r0, List.mem_toFinset.2 hr0rs⟩
  have hexists : ∃ y ∈ rows.filter fun r => r.Subject == s,
      ((rows.filter fun r => r.Subject == s).all fun q =>
        decide (q.Mean ≤ y.Mean)) = true := by
    refine ⟨x, List.mem_toFinset.1 hx, ?_⟩
    rw [List.all_eq_true]
    intro q hq
    exact decide_eq_true (hmax q (List.mem_toFinset.2 hq))
  have hsome : (idxmaxMean (rows.filter fun r => r.Subject == s)).isSome := by
    unfold idxmaxMean
    rw [List.find?_isSome]
    exact hexists
  obtain ⟨b, hb⟩ := Option.isSome_iff_exists.1 hsome
  have hbtop : b ∈ top_methods rows := by
    unfold top_methods
    rw [List.mem_filterMap]
    refine ⟨s, ?_, hb⟩
    rw [(List.perm_insertionSort strLE _).mem_iff, List.mem_dedup, List.mem_map]
    exact ⟨r0, hr0, hr0s⟩
  unfold idxmaxMean at hb
  rw [List.find?_eq_some] at hb
  obtain ⟨hpb, l₁, l₂, hsplit, hpre⟩ := hb
  rw [List.all_eq_true] at hpb
  have hmaxb : ∀ q ∈ rows.filter fun r => r.Subject == s, q.Mean ≤ b.Mean :=
    fun q hq => of_decide_eq_true (hpb q hq)
  have hbmem : b ∈ rows.filter fun r => r.Subject == s := by
    rw [hsplit]
    exact List.mem_append.2 (Or.inr (List.mem_cons_self b l₂))
  have hbs : b.Subject = s := eq_of_beq (List.mem_filter.1 hbmem).2
  refine ⟨b, hbtop, hbs, ?_, l₁, l₂, hsplit, ?_⟩
  · intro r hr hrsub
    exact hmaxb r (List.mem_filter.2 ⟨hr, by simp [hrsub]⟩)
  · intro r hrl₁
    have hfalse := hpre r hrl₁
    rw [Bool.not_eq_true'] at hfalse
    have hnot : ¬ ∀ q ∈ rows.filter fun rr => rr.Subject == s, q.Mean ≤ r.Mean := by
      intro hall
      have : ((rows.filter fun rr => rr.Subject == s).all fun q =>
          decide (q.Mean ≤ r.Mean)) = true := by
        rw [List.all_eq_true]
        intro q hq
        exact decide_eq_true (hall q hq)
      rw [this] at hfalse
      simp at hfalse
    push_neg at hnot
    obtain ⟨q, hq, hlt⟩ := hnot
    exact lt_of_lt_of_le hlt (hmaxb q hq)

/-- Witness for C4: on the two-row fixture the query picks the
Group-Learning row for English. -/
theorem C4_witness :
    ∃ b ∈ top_methods rowsPair, b.Subject = "English" ∧
      (∀ r ∈ rowsPair, r.Subject = "English" → r.Mean ≤ b.Mean) ∧
      ∃ l₁ l₂, (rowsPair.filter fun r => r.Subject == "English") = l₁ ++ b :: l₂ ∧
        ∀ r ∈ l₁, r.Mean < b.Mean :=
  C4_best_method_per_subject rowsPair "English" (by decide)

/-- C7: every entry of the overall-mean-per-method query is the pooled
arithmetic mean of the scores of all long records of that method, across
all subjects (each of the method's students contributes all five of their
subject rows to the pool). -/
theorem C7_overall_mean_pooled (df : List ScoreRecord) (m : String) (μ : ℚ)
    (h : (m, μ) ∈ overall_means (df_melted df)) :
    μ = (((df_melted df).filter fun r => r.TeachingMethod == m).map
          LongRecord.Score).sum
        / ((((df_melted df).filter fun r => r.TeachingMethod == m).map
          LongRecord.Score).length : ℚ) ∧
    (((df_melted df).filter fun r => r.TeachingMethod == m).map
        LongRecord.Score).length
      = 5 * (df.filter fun rc => rc.TeachingMethod == m).length := by
  constructor
  · unfold overall_means at h
    rw [List.mem_map] at h
    obtain ⟨m', _, heq⟩ := h
    simp only [Prod.mk.injEq] at heq
    obtain ⟨rfl, rfl⟩ := heq
    rfl
  · simp only [df_melted, melt, value_vars, List.flatMap_cons, List.flatMap_nil,
      List.map_append, List.map_map, List.filter_append, List.filter_map,
      List.length_append, List.length_map, List.append_nil, Function.comp_def]
    omega

/-- Witness for C7: the single teaching method of the three-student fixture
pools all 15 long records, and its overall mean is the pooled mean. -/
theorem C7_witness :
    ((((df_melted dfGroup).filter fun r =>
          r.TeachingMethod == "Group Learning").map LongRecord.Score).sum / 15
      = (((df_melted dfGroup).filter fun r =>
            r.TeachingMethod == "Group Learning").map LongRecord.Score).sum
        / ((((df_melted dfGroup).filter fun r =>
            r.TeachingMethod == "Group Learning").map LongRecord.Score).length : ℚ)) ∧
    (((df_melted dfGroup).filter fun r =>
        r.TeachingMethod == "Group Learning").map LongRecord.Score).length
      = 5 * (dfGroup.filter fun rc =>
          rc.TeachingMethod == "Group Learning").length :=
  C7_overall_mean_pooled dfGroup "Group Learning"
    ((((df_melted dfGroup).filter fun r =>
        r.TeachingMethod == "Group Learning").map LongRecord.Score).sum / 15)
    (by decide)

theorem commaJoin_split :
    ∀ (l : List String) (c : String), c ∈ l →
      ∃ p q : String, commaJoin l = p ++ (c ++ q) := by
  intro l
  induction l with
  | nil => intro c hc; cases hc
  | cons x xs ih =>
    intro c hc
    cases xs with
    | nil =>
      rw [List.mem_singleton] at hc
      subst hc
      refine ⟨"", "", ?_⟩
      show c = "" ++ (c ++ "")
      rw [String.empty_append, String.append_empty]
    | cons y ys =>
      rw [List.mem_cons] at hc
      rcases hc with rfl | hc
      · refine ⟨"", ", " ++ commaJoin (y :: ys), ?_⟩
        show c ++ ", " ++ commaJoin (y :: ys) = "" ++ (c ++ (", " ++ commaJoin (y :: ys)))
        rw [String.empty_append, String.append_assoc]
      · obtain ⟨p, q, hpq⟩ := ih c hc
        refine ⟨x ++ ", " ++ p, q, ?_⟩
        show x ++ ", " ++ commaJoin (y :: ys) = x ++ ", " ++ p ++ (c ++ q)
        rw [hpq, String.append_assoc (x ++ ", ") p (c ++ q)]

/-- C8: for every column set lacking a required column (an id variable or a
subject score column), the pipeline fails at the melt-time schema check,
before any statistics are computed, with a KeyError-style message in which
the missing column's name occurs literally. -/
theorem C8_missing_column_fails_fast (cols : List String) (c : String)
    (hreq : c ∈ requiredColumns) (habs : c ∉ cols) :
    c ∈ missingColumns cols ∧
    (∃ p q : String,
      ("The following id_vars or value_vars are not present in the DataFrame: ["
          ++ commaJoin (missingColumns cols) ++ "]")
        = p ++ (c ++ q)) ∧
    ∀ df : List ScoreRecord,
      runPipeline cols df =
        .error ("The following id_vars or value_vars are not present in the DataFrame: ["
          ++ commaJoin (missingColumns cols) ++ "]") := by
  have hc : c ∈ missingColumns cols := by
    unfold missingColumns
    rw [List.mem_filter]
    exact ⟨hreq, decide_eq_true habs⟩
  have hne : missingColumns cols ≠ [] := fun h => by
    rw [h] at hc
    exact List.not_mem_nil c hc
  have hkey : meltKeyError cols =
      some ("The following id_vars or value_vars are not present in the DataFrame: ["
        ++ commaJoin (missingColumns cols) ++ "]") := by
    unfold meltKeyError
    rw [if_neg hne]
  refine ⟨hc, ?_, fun df => ?_⟩
  · obtain ⟨p, q, hpq⟩ := commaJoin_split (missingColumns cols) c hc
    refine ⟨"The following id_vars or value_vars are not present in the DataFrame: ["
      ++ p, q ++ "]", ?_⟩
    rw [hpq]
    simp only [String.append_assoc]
  · unfold runPipeline
    rw [hkey]

/-- Witness for C8: a sheet lacking BiologyScore makes the pipeline fail
with a message that contains the column name, before aggregating. -/
theorem C8_witness :
    "BiologyScore" ∈ missingColumns colsMissingBiology ∧
    (∃ p q : String,
      ("The following id_vars or value_vars are not present in the DataFrame: ["
          ++ commaJoin (missingColumns colsMissingBiology) ++ "]")
        = p ++ ("BiologyScore" ++ q)) ∧
    runPipeline colsMissingBiology dfSingle =
      .error ("The following id_vars or value_vars are not present in the DataFrame: ["
        ++ commaJoin (missingColumns colsMissingBiology) ++ "]") :=
  ⟨(C8_missing_column_fails_fast colsMissingBiology "BiologyScore"
      (by decide) (by decide)).1,
   (C8_missing_column_fails_fast colsMissingBiology "BiologyScore"
      (by decide) (by decide)).2.1,
   (C8_missing_column_fails_fast colsMissingBiology "BiologyScore"
      (by decide) (by decide)).2.2 dfSingle⟩
